import Mathlib

/-!
Verification development for the RP2040 SDIO driver
(src/lib/ZuluSCSI_platform_RP2040/rp2040_sdio.cpp and sd_card_sdio.cpp).

The driver is shallowly embedded: machine integers are `Nat` with explicit
`% 2^w` where overflow matters, the global `g_sdio` struct together with the
observable hardware state (DMA channel, PIO state machine, pin directions,
interrupt flags) becomes the record `SdioCtx`, and each C function becomes a
pure function on that record.  Values read from hardware FIFOs (the two CRC
words trailing each received block) and the current `millis()` value are
passed as explicit arguments.
-/

namespace BlueSCSI

set_option maxRecDepth 8000

/-- Status codes returned by the driver (`sdio_status_t`). -/
inductive sdio_status_t where
  | SDIO_OK
  | SDIO_BUSY
  | SDIO_ERR_RESPONSE_TIMEOUT
  | SDIO_ERR_RESPONSE_CRC
  | SDIO_ERR_RESPONSE_CODE
  | SDIO_ERR_DATA_CRC
  | SDIO_ERR_DATA_TIMEOUT
  deriving DecidableEq

/-- Transfer direction state (`sdio_transfer_state_t`): `SDIO_IDLE`, `SDIO_RX`, `SDIO_TX`. -/
inductive sdio_transfer_state_t where
  | SDIO_IDLE
  | SDIO_RX
  | SDIO_TX
  deriving DecidableEq

/-- Semantics of `__builtin_bswap32`: reverse the four bytes of a 32-bit word.
The four byte fields are bit-disjoint, so XOR-joining them equals OR-joining. -/
def bswap32 (w : Nat) : Nat :=
  ((w &&& 0xFF) <<< 24) ^^^ ((w &&& 0xFF00) <<< 8) ^^^
    ((w >>> 8) &&& 0xFF00) ^^^ ((w >>> 24) &&& 0xFF)

/-- One iteration of the loop body of `sdio_crc16_4bit_checksum` (lines 83-104):
consume one 32-bit data word into the packed 4 x CRC16 accumulator `crc`
(a 64-bit value, kept below `2^64` by the explicit truncations that model
`uint64_t` arithmetic). -/
def crc16_step (crc w : Nat) : Nat :=
  let data_in := bswap32 w
  let data_out0 := crc >>> 32
  let crc1 := (crc <<< 32) % 2^64
  let data_out1 := data_out0 ^^^ (data_out0 >>> 16)
  let data_out2 := data_out1 ^^^ (data_in >>> 16)
  let xorred := data_out2 ^^^ data_in
  crc1 ^^^ xorred ^^^ ((xorred <<< 20) % 2^64) ^^^ ((xorred <<< 48) % 2^64)

/-- `sdio_crc16_4bit_checksum(data, num_words)` (lines 79-107): fold
`crc16_step` over the words, starting from `crc = 0`.  The word list plays the
role of the `data` pointer plus `num_words`. -/
def sdio_crc16_4bit_checksum (data : List Nat) : Nat :=
  List.foldl crc16_step 0 data

/-- A list of `n` zero words (an all-zero block when `n = 128`). -/
def zeroWords : Nat → List Nat
  | 0 => []
  | n + 1 => 0 :: zeroWords n

/-- A list of `n` words that is zero everywhere except value `v` at index `i`. -/
def oneHot : Nat → Nat → Nat → List Nat
  | 0, _, _ => []
  | n + 1, 0, v => v :: zeroWords n
  | n + 1, i + 1, v => 0 :: oneHot n i v

/-- Iterate the CRC16x4 update on zero data words `n` times. -/
def iterZeroWords : Nat → Nat → Nat
  | 0, s => s
  | n + 1, s => iterZeroWords n (crc16_step s 0)

/-- `chainNonzero n s` checks that `s`, and every state reached from `s` by up
to `n - 1` further zero-word CRC updates, is nonzero. -/
def chainNonzero : Nat → Nat → Bool
  | 0, _ => true
  | n + 1, s => (s != 0) && chainNonzero n (crc16_step s 0)

/-- For every bit position `b < 32`, injecting the single set bit `2^b` into
the CRC16x4 accumulator and then shifting it through up to 127 further zero
words never yields the zero accumulator. -/
def allFlipNonzero : Bool :=
  (List.range 32).all fun b => chainNonzero 128 (crc16_step 0 (1 <<< b))

/-- The 256-entry CRC7 lookup table (lines 56-73). -/
def crc7_table : List Nat := [
  0x00, 0x12, 0x24, 0x36, 0x48, 0x5a, 0x6c, 0x7e, 0x90, 0x82, 0xb4, 0xa6, 0xd8, 0xca, 0xfc, 0xee,
  0x32, 0x20, 0x16, 0x04, 0x7a, 0x68, 0x5e, 0x4c, 0xa2, 0xb0, 0x86, 0x94, 0xea, 0xf8, 0xce, 0xdc,
  0x64, 0x76, 0x40, 0x52, 0x2c, 0x3e, 0x08, 0x1a, 0xf4, 0xe6, 0xd0, 0xc2, 0xbc, 0xae, 0x98, 0x8a,
  0x56, 0x44, 0x72, 0x60, 0x1e, 0x0c, 0x3a, 0x28, 0xc6, 0xd4, 0xe2, 0xf0, 0x8e, 0x9c, 0xaa, 0xb8,
  0xc8, 0xda, 0xec, 0xfe, 0x80, 0x92, 0xa4, 0xb6, 0x58, 0x4a, 0x7c, 0x6e, 0x10, 0x02, 0x34, 0x26,
  0xfa, 0xe8, 0xde, 0xcc, 0xb2, 0xa0, 0x96, 0x84, 0x6a, 0x78, 0x4e, 0x5c, 0x22, 0x30, 0x06, 0x14,
  0xac, 0xbe, 0x88, 0x9a, 0xe4, 0xf6, 0xc0, 0xd2, 0x3c, 0x2e, 0x18, 0x0a, 0x74, 0x66, 0x50, 0x42,
  0x9e, 0x8c, 0xba, 0xa8, 0xd6, 0xc4, 0xf2, 0xe0, 0x0e, 0x1c, 0x2a, 0x38, 0x46, 0x54, 0x62, 0x70,
  0x82, 0x90, 0xa6, 0xb4, 0xca, 0xd8, 0xee, 0xfc, 0x12, 0x00, 0x36, 0x24, 0x5a, 0x48, 0x7e, 0x6c,
  0xb0, 0xa2, 0x94, 0x86, 0xf8, 0xea, 0xdc, 0xce, 0x20, 0x32, 0x04, 0x16, 0x68, 0x7a, 0x4c, 0x5e,
  0xe6, 0xf4, 0xc2, 0xd0, 0xae, 0xbc, 0x8a, 0x98, 0x76, 0x64, 0x52, 0x40, 0x3e, 0x2c, 0x1a, 0x08,
  0xd4, 0xc6, 0xf0, 0xe2, 0x9c, 0x8e, 0xb8, 0xaa, 0x44, 0x56, 0x60, 0x72, 0x0c, 0x1e, 0x28, 0x3a,
  0x4a, 0x58, 0x6e, 0x7c, 0x02, 0x10, 0x26, 0x34, 0xda, 0xc8, 0xfe, 0xec, 0x92, 0x80, 0xb6, 0xa4,
  0x78, 0x6a, 0x5c, 0x4e, 0x30, 0x22, 0x14, 0x06, 0xe8, 0xfa, 0xcc, 0xde, 0xa0, 0xb2, 0x84, 0x96,
  0x2e, 0x3c, 0x0a, 0x18, 0x66, 0x74, 0x42, 0x50, 0xbe, 0xac, 0x9a, 0x88, 0xf6, 0xe4, 0xd2, 0xc0,
  0x1c, 0x0e, 0x38, 0x2a, 0x54, 0x46, 0x70, 0x62, 0x8c, 0x9e, 0xa8, 0xba, 0xc4, 0xd6, 0xe0, 0xf2]

/-- One table-driven CRC7 update: `crc = crc7_table[crc ^ byte]` where both
operands are bytes. -/
def crc7_step (crc byte : Nat) : Nat :=
  crc7_table.getD ((crc ^^^ byte) % 256) 0

/-- CRC7 of a byte sequence, starting from 0 (the usage pattern documented at
lines 51-55). -/
def crc7_of_bytes (bytes : List Nat) : Nat :=
  List.foldl crc7_step 0 bytes

/-- The response-validation and decoding part of `rp2040_sdio_command_R1`
(lines 174-203), as a function of the command index and the two 32-bit words
`resp0`, `resp1` read from the command state machine RX FIFO.  Returns the
status together with the decoded payload (`some` only on success, since the
source writes `*response` only after all checks pass). -/
def rp2040_sdio_command_R1_decode (command resp0 resp1 : Nat) :
    sdio_status_t × Option Nat :=
  let crc0 := crc7_step 0 ((resp0 >>> 24) &&& 0xFF)
  let crc1 := crc7_step crc0 ((resp0 >>> 16) &&& 0xFF)
  let crc2 := crc7_step crc1 ((resp0 >>> 8) &&& 0xFF)
  let crc3 := crc7_step crc2 (resp0 &&& 0xFF)
  let crc4 := crc7_step crc3 ((resp1 >>> 8) &&& 0xFF)
  let actual_crc := resp1 &&& 0xFE
  if crc4 ≠ actual_crc then (.SDIO_ERR_RESPONSE_CRC, none)
  else
    let response_cmd := (resp0 >>> 24) &&& 0xFF
    if response_cmd ≠ command ∧ command ≠ 41 then (.SDIO_ERR_RESPONSE_CODE, none)
    else (.SDIO_OK, some (((resp0 &&& 0xFFFFFF) <<< 8) ||| ((resp1 >>> 8) &&& 0xFF)))

/-- The `g_sdio` driver struct (lines 29-45) together with the observable
hardware state it drives: the SDIO DMA channel, the data PIO state machine,
the data-pin directions and the DMA interrupt flags for channel
`SDIO_DMA_CH`.  `data_buf` is the word-indexed content of the caller's
buffer; `block_checksums` is the 64-bit checksum table.  `crc_log_count`
counts the checksum-error log messages emitted, and `assert_failed` records
whether any `assert` condition in the source was violated. -/
structure SdioCtx where
  transfer_state : sdio_transfer_state_t
  inside_irq_handler : Bool
  transfer_start_time : Nat
  data_buf : Nat → Nat
  blocks_done : Nat
  total_blocks : Nat
  blocks_checksumed : Nat
  checksum_errors : Nat
  block_checksums : Nat → Nat
  crc_log_count : Nat
  dma_armed : Bool
  dma_intr : Bool
  dma_inte0 : Bool
  dma_inte1 : Bool
  sm_enabled : Bool
  pindirs_out : Bool
  tx_fifo : List Nat
  assert_failed : Bool

/-- Record a violated `assert` condition; execution continues as in a release
build. -/
def sdio_assert (cond : Prop) [Decidable cond] (s : SdioCtx) : SdioCtx :=
  if cond then s else { s with assert_failed := true }

/-- The 128 words of block `blockidx` of the buffer
(`g_sdio.data_buf + blockidx * 128`, 128 words). -/
def blockWords (buf : Nat → Nat) (blockidx : Nat) : List Nat :=
  (List.range 128).map fun k => buf (blockidx * 128 + k)

/-- The state after `rp2040_sdio_init` (lines 619-688): `memset(&g_sdio, 0)`,
raw DMA completion flag cleared (`dma_hw->ints1 = 1 << SDIO_DMA_CH`), and the
channel's interrupt enabled on DMA IRQ 1 only
(`dma_channel_set_irq1_enabled(SDIO_DMA_CH, true)`); IRQ 0 is never enabled
for this channel. -/
def initCtx : SdioCtx where
  transfer_state := .SDIO_IDLE
  inside_irq_handler := false
  transfer_start_time := 0
  data_buf := fun _ => 0
  blocks_done := 0
  total_blocks := 0
  blocks_checksumed := 0
  checksum_errors := 0
  block_checksums := fun _ => 0
  crc_log_count := 0
  dma_armed := false
  dma_intr := false
  dma_inte0 := false
  dma_inte1 := true
  sm_enabled := false
  pindirs_out := false
  tx_fifo := []
  assert_failed := false

/-- `(uint32_t)(millis() - start)`: elapsed milliseconds with 32-bit
wraparound subtraction. -/
def u32elapsed (now start : Nat) : Nat :=
  ((now % 2^32) + 2^32 - start % 2^32) % 2^32

/-- `sdio_start_next_block_rx` (lines 326-340): assert progress remains,
restart the data state machine, arm DMA for the next 128-word block, enable
the state machine. -/
def sdio_start_next_block_rx (s : SdioCtx) : SdioCtx :=
  let s := sdio_assert (s.blocks_done < s.total_blocks) s
  { s with sm_enabled := true, dma_armed := true }

/-- `sdio_verify_rx_checksums(maxcount)` (lines 343-360): verify up to
`maxcount` received blocks that have not been checked yet, counting mismatches
and logging only the first one. -/
def sdio_verify_rx_checksums (maxcount : Nat) (s : SdioCtx) : SdioCtx :=
  match maxcount with
  | 0 => s
  | m + 1 =>
    if s.blocks_checksumed < s.blocks_done then
      let blockidx := s.blocks_checksumed
      let checksum := sdio_crc16_4bit_checksum (blockWords s.data_buf blockidx)
      let expected := s.block_checksums blockidx
      let s1 := { s with blocks_checksumed := blockidx + 1 }
      let s2 :=
        if checksum ≠ expected then
          let s3 := { s1 with checksum_errors := s1.checksum_errors + 1 }
          if s3.checksum_errors = 1 then { s3 with crc_log_count := s3.crc_log_count + 1 }
          else s3
        else s1
      sdio_verify_rx_checksums m s2
    else s

/-- `rp2040_sdio_rx_irq` (lines 362-389): acknowledge the DMA interrupt
(clearing the raw completion flag via `dma_hw->ints1`), read the two trailing
CRC words `crc0`, `crc1` from the data state machine FIFO, record them in the
checksum table for the just-finished block, and either start the next block or
go idle. -/
def rp2040_sdio_rx_irq (crc0 crc1 : Nat) (s : SdioCtx) : SdioCtx :=
  let s := { s with dma_intr := false }
  let s := { s with
    block_checksums := fun i =>
      if i = s.blocks_done then ((crc0 % 2^32) <<< 32) ||| (crc1 % 2^32)
      else s.block_checksums i,
    blocks_done := s.blocks_done + 1 }
  if s.blocks_done < s.total_blocks then sdio_start_next_block_rx s
  else { s with transfer_state := .SDIO_IDLE }

/-- `rp2040_sdio_stop` (lines 600-607): abort DMA, disable the data state
machine and the data-pin drivers, and force the state to idle. -/
def rp2040_sdio_stop (s : SdioCtx) : sdio_status_t × SdioCtx :=
  (.SDIO_OK,
   { s with dma_armed := false, sm_enabled := false, pindirs_out := false,
            transfer_state := .SDIO_IDLE })

/-- `rp2040_sdio_rx_start(buffer, num_blocks)` (lines 391-424).
`in_fault` is the value of `SCB->ICSR & SCB_ICSR_VECTACTIVE_Msk` (nonzero when
arming from inside an interrupt/fault handler) and `now` is `millis()`. -/
def rp2040_sdio_rx_start (buffer : Nat → Nat) (num_blocks : Nat)
    (in_fault : Bool) (now : Nat) (s : SdioCtx) : sdio_status_t × SdioCtx :=
  let s := sdio_assert (num_blocks ≤ 256) s
  let s := { s with
    transfer_state := .SDIO_RX
    transfer_start_time := now
    data_buf := buffer
    blocks_done := 0
    total_blocks := num_blocks
    blocks_checksumed := 0
    checksum_errors := 0
    inside_irq_handler := in_fault
    pindirs_out := false }
  let s := sdio_start_next_block_rx s
  (.SDIO_OK, s)

/-- `rp2040_sdio_rx_poll(bytes_complete)` (lines 426-465).  `now` is the
current `millis()`; `crc0`, `crc1` are the FIFO words that the manually
dispatched completion handler would read.  Returns
(status, `*bytes_complete`, new state).  Note the source tests
`dma_hw->ints0` — the IRQ0-masked interrupt status, i.e. raw flag AND
`INTE0` — in the manual-dispatch check. -/
def rp2040_sdio_rx_poll (now crc0 crc1 : Nat) (s : SdioCtx) :
    sdio_status_t × Nat × SdioCtx :=
  let s := if s.inside_irq_handler && (s.dma_intr && s.dma_inte0)
           then rp2040_sdio_rx_irq crc0 crc1 s else s
  let bytes_complete := s.blocks_done * 512
  if s.transfer_state = .SDIO_IDLE then
    let s := sdio_verify_rx_checksums s.total_blocks s
    if s.checksum_errors = 0 then (.SDIO_OK, bytes_complete, s)
    else (.SDIO_ERR_DATA_CRC, bytes_complete, s)
  else if u32elapsed now s.transfer_start_time > 1000 then
    (.SDIO_ERR_DATA_TIMEOUT, bytes_complete, (rp2040_sdio_stop s).2)
  else
    (.SDIO_BUSY, bytes_complete, sdio_verify_rx_checksums 1 s)

/-- `sdio_start_next_block_tx` (lines 472-478): assert that a block remains
and that its checksum is already in the table, then arm DMA from the buffer. -/
def sdio_start_next_block_tx (s : SdioCtx) : SdioCtx :=
  let s := sdio_assert
    (s.blocks_done < s.total_blocks ∧ s.blocks_checksumed > s.blocks_done) s
  { s with dma_armed := true }

/-- `sdio_compute_tx_checksums(maxcount)` (lines 480-487), exactly as written:
the loop runs only while `blocks_checksumed < blocks_done`. -/
def sdio_compute_tx_checksums (maxcount : Nat) (s : SdioCtx) : SdioCtx :=
  match maxcount with
  | 0 => s
  | m + 1 =>
    if s.blocks_checksumed < s.blocks_done then
      let blockidx := s.blocks_checksumed
      let s := { s with
        blocks_checksumed := blockidx + 1,
        block_checksums := fun i =>
          if i = blockidx then sdio_crc16_4bit_checksum (blockWords s.data_buf blockidx)
          else s.block_checksums i }
      sdio_compute_tx_checksums m s
    else s

/-- `rp2040_sdio_tx_irq` (lines 489-517): after a bounded spin for FIFO space
(no state effect), push the table checksum of the just-drained block and the
end marker to the data state machine TX FIFO, then advance or go idle. -/
def rp2040_sdio_tx_irq (s : SdioCtx) : SdioCtx :=
  let crc := s.block_checksums s.blocks_done
  let s := { s with
    tx_fifo := s.tx_fifo ++ [(crc >>> 32) % 2^32, crc % 2^32, 0xFFFFFFFF] }
  let s := { s with blocks_done := s.blocks_done + 1 }
  if s.blocks_done < s.total_blocks then sdio_start_next_block_tx s
  else { s with transfer_state := .SDIO_IDLE }

/-- `rp2040_sdio_tx_start(buffer, num_blocks)` (lines 521-563). -/
def rp2040_sdio_tx_start (buffer : Nat → Nat) (num_blocks : Nat)
    (in_fault : Bool) (now : Nat) (s : SdioCtx) : sdio_status_t × SdioCtx :=
  let s := sdio_assert (num_blocks ≤ 256) s
  let s := { s with
    transfer_state := .SDIO_TX
    transfer_start_time := now
    data_buf := buffer
    blocks_done := 0
    total_blocks := num_blocks
    blocks_checksumed := 0
    checksum_errors := 0
    inside_irq_handler := in_fault }
  let s := sdio_compute_tx_checksums 1 s
  let s := { s with pindirs_out := true }
  let s := sdio_start_next_block_tx s
  let s := { s with sm_enabled := true }
  let s := sdio_compute_tx_checksums s.total_blocks s
  (.SDIO_OK, s)

/-- `rp2040_sdio_tx_poll(bytes_complete)` (lines 566-597). -/
def rp2040_sdio_tx_poll (now : Nat) (s : SdioCtx) :
    sdio_status_t × Nat × SdioCtx :=
  let s := if s.inside_irq_handler && (s.dma_intr && s.dma_inte0)
           then rp2040_sdio_tx_irq s else s
  let bytes_complete := s.blocks_done * 512
  if s.transfer_state = .SDIO_IDLE then
    (.SDIO_OK, bytes_complete, { s with sm_enabled := false, pindirs_out := false })
  else if u32elapsed now s.transfer_start_time > 1000 then
    (.SDIO_ERR_DATA_TIMEOUT, bytes_complete, (rp2040_sdio_stop s).2)
  else
    (.SDIO_BUSY, bytes_complete, s)

/-- `rp2040_sdio_dma_irq` (lines 609-617): acknowledge the interrupt and
dispatch to the direction-specific completion handler. -/
def rp2040_sdio_dma_irq (crc0 crc1 : Nat) (s : SdioCtx) : SdioCtx :=
  let s := { s with dma_intr := false }
  if s.transfer_state = .SDIO_TX then rp2040_sdio_tx_irq s
  else if s.transfer_state = .SDIO_RX then rp2040_sdio_rx_irq crc0 crc1 s
  else s

/-- External events driving a transfer session: a DMA completion (which raises
the raw interrupt flag and, outside of fault context, immediately runs the
DMA IRQ handler since `rp2040_sdio_init` enabled it on IRQ 1), or a caller
poll.  `crc0`, `crc1` are the trailing CRC words available in the RX FIFO. -/
inductive SdioEvent where
  | complete (crc0 crc1 : Nat)
  | rxPoll (now crc0 crc1 : Nat)
  | txPoll (now : Nat)

/-- Small-step semantics of one event. -/
def sdioStep (s : SdioCtx) (e : SdioEvent) : SdioCtx :=
  match e with
  | .complete c0 c1 =>
    if s.dma_armed then
      let s1 := { s with dma_armed := false, dma_intr := true }
      if !s1.inside_irq_handler && s1.dma_inte1 then rp2040_sdio_dma_irq c0 c1 s1
      else s1
    else s
  | .rxPoll now c0 c1 => (rp2040_sdio_rx_poll now c0 c1 s).2.2
  | .txPoll now => (rp2040_sdio_tx_poll now s).2.2

/-- Events admissible for a receive session that never runs into the 1000 ms
budget: only completions and in-budget receive polls. -/
def rxEventOk (t0 : Nat) : SdioEvent → Prop
  | .complete _ _ => True
  | .rxPoll now _ _ => u32elapsed now t0 ≤ 1000
  | .txPoll _ => False

/-- Invariant of a receive session armed with `n` blocks at time `t0`. -/
def rxSessionInv (n t0 : Nat) (s : SdioCtx) : Prop :=
  s.dma_inte0 = false ∧
  s.transfer_start_time = t0 ∧
  s.total_blocks = n ∧
  s.transfer_state ≠ .SDIO_TX ∧
  s.blocks_done ≤ s.total_blocks ∧
  (s.transfer_state = .SDIO_RX → s.blocks_done < s.total_blocks) ∧
  (s.transfer_state = .SDIO_IDLE → s.blocks_done = s.total_blocks ∧ s.dma_armed = false)

/-- Number of received blocks in `[first, first + len)` whose computed
CRC16x4 disagrees with the checksum table. -/
def mismatchCount (buf table : Nat → Nat) : Nat → Nat → Nat
  | _, 0 => 0
  | first, len + 1 =>
    (if sdio_crc16_4bit_checksum (blockWords buf first) = table first then 0 else 1) +
      mismatchCount buf table (first + 1) len

/-- Environment of `SdioCard::begin` (sd_card_sdio.cpp lines 27-101): `cmd n`
is the status and 32-bit response of the `n`-th SD command issued since
`begin` started, and `clock n` is the value returned by the `n`-th `millis()`
call. -/
structure BeginEnv where
  cmd : Nat → sdio_status_t × Nat
  clock : Nat → Nat

/-- The CMD0/CMD8 identification retry loop (lines 35-46): up to the given
number of attempts; each attempt issues CMD0 (result ignored) then CMD8 and
stops at the first attempt whose status is OK with echo `0x1AA`.  Returns the
last (status, reply) pair read and the next command index. -/
def beginIdentifyLoop (env : BeginEnv) : Nat → Nat → ((sdio_status_t × Nat) × Nat)
  | 0, k => ((.SDIO_ERR_RESPONSE_TIMEOUT, 0), k)
  | retries + 1, k =>
    let step := env.cmd (k + 1)
    if step.1 = .SDIO_OK ∧ step.2 = 0x1AA then (step, k + 2)
    else
      match retries with
      | 0 => (step, k + 2)
      | r + 1 => beginIdentifyLoop env (r + 1) (k + 2)

/-- Result of the ACMD41 polling loop: card reports power-up complete, the
loop returned `false` (a command failed or the 1000 ms budget elapsed), or the
explicit fuel ran out (a modeling artifact never reached in the theorems
below). -/
inductive Acmd41Result where
  | done (ocr k : Nat)
  | fail
  | out
  deriving DecidableEq

/-- The CMD55 + ACMD41 initialization polling loop (lines 54-69).  `start` is
the `millis()` value captured before the loop; `k` and `c` are the next
command index and `millis()`-call index.  Each iteration issues CMD55 then
ACMD41, fails on a command error, fails on `(uint32_t)(millis() - start) >
1000`, and completes once OCR bit 31 is set. -/
def beginAcmd41Loop (env : BeginEnv) (start : Nat) : Nat → Nat → Nat → Acmd41Result
  | 0, _, _ => .out
  | fuel + 1, k, c =>
    let app := env.cmd k
    if app.1 ≠ .SDIO_OK then .fail
    else
      let acmd := env.cmd (k + 1)
      if acmd.1 ≠ .SDIO_OK then .fail
      else if u32elapsed (env.clock c) start > 1000 then .fail
      else if (acmd.2).testBit 31 then .done acmd.2 (k + 2)
      else beginAcmd41Loop env start fuel (k + 2) (c + 1)

/-- `SdioCard::begin` (lines 27-101): identification with up to 5 attempts,
the ACMD41 polling loop, then CMD2 (CID), CMD3 (RCA), CMD7 (select),
CMD55 + ACMD6 (4-bit bus); `false` as soon as anything fails. -/
def SdioCard_begin (env : BeginEnv) (fuel : Nat) : Bool :=
  let idr := beginIdentifyLoop env 5 0
  if idr.1.2 ≠ 0x1AA ∨ idr.1.1 ≠ .SDIO_OK then false
  else
    match beginAcmd41Loop env (env.clock 0) fuel idr.2 1 with
    | .out => false
    | .fail => false
    | .done _ k2 =>
      if (env.cmd k2).1 ≠ .SDIO_OK then false
      else if (env.cmd (k2 + 1)).1 ≠ .SDIO_OK then false
      else if (env.cmd (k2 + 2)).1 ≠ .SDIO_OK then false
      else if (env.cmd (k2 + 3)).1 ≠ .SDIO_OK then false
      else if (env.cmd (k2 + 4)).1 ≠ .SDIO_OK then false
      else true

/-- One ACMD41 loop iteration (command index `k`, clock index `c`) lets the
loop continue: both commands succeed, the budget has not elapsed, and OCR
bit 31 is still clear. -/
def acmd41Continues (env : BeginEnv) (start k c : Nat) : Prop :=
  (env.cmd k).1 = .SDIO_OK ∧ (env.cmd (k + 1)).1 = .SDIO_OK ∧
    u32elapsed (env.clock c) start ≤ 1000 ∧ ((env.cmd (k + 1)).2).testBit 31 = false

/-- C10: `rp2040_sdio_stop`, called in any session state, returns `SDIO_OK`
and unconditionally leaves the session idle with the DMA channel aborted, the
data state machine disabled and the data-pin drivers released; calling it
again from the resulting state returns `SDIO_OK` with the very same state, so
stop is idempotent. -/
theorem rp2040_sdio_stop_idle_and_idempotent (s : SdioCtx) :
    (rp2040_sdio_stop s).1 = .SDIO_OK ∧
    (rp2040_sdio_stop s).2.transfer_state = .SDIO_IDLE ∧
    (rp2040_sdio_stop s).2.dma_armed = false ∧
    (rp2040_sdio_stop s).2.sm_enabled = false ∧
    (rp2040_sdio_stop s).2.pindirs_out = false ∧
    rp2040_sdio_stop (rp2040_sdio_stop s).2 = (.SDIO_OK, (rp2040_sdio_stop s).2) := by
  refine ⟨rfl, rfl, rfl, rfl, rfl, rfl⟩

/-- C6: every poll (receive or transmit) made while the session has not
returned to idle and more than 1000 ms have elapsed since arming forcibly
aborts the session — DMA aborted, data state machine disabled, data-pin
drivers released, state reset to idle — and returns the data-timeout error,
leaving no hardware armed.  (`dma_inte0 = false` holds for every state the
driver produces, since `rp2040_sdio_init` only enables the channel's
interrupt on DMA IRQ 1.) -/
theorem poll_timeout_aborts_session (s : SdioCtx) (now : Nat)
    (h0 : s.dma_inte0 = false)
    (hst : s.transfer_state ≠ .SDIO_IDLE)
    (ht : u32elapsed now s.transfer_start_time > 1000) :
    (∀ crc0 crc1,
      (rp2040_sdio_rx_poll now crc0 crc1 s).1 = .SDIO_ERR_DATA_TIMEOUT ∧
      (rp2040_sdio_rx_poll now crc0 crc1 s).2.2.transfer_state = .SDIO_IDLE ∧
      (rp2040_sdio_rx_poll now crc0 crc1 s).2.2.dma_armed = false ∧
      (rp2040_sdio_rx_poll now crc0 crc1 s).2.2.sm_enabled = false ∧
      (rp2040_sdio_rx_poll now crc0 crc1 s).2.2.pindirs_out = false) ∧
    ((rp2040_sdio_tx_poll now s).1 = .SDIO_ERR_DATA_TIMEOUT ∧
      (rp2040_sdio_tx_poll now s).2.2.transfer_state = .SDIO_IDLE ∧
      (rp2040_sdio_tx_poll now s).2.2.dma_armed = false ∧
      (rp2040_sdio_tx_poll now s).2.2.sm_enabled = false ∧
      (rp2040_sdio_tx_poll now s).2.2.pindirs_out = false) := by
  constructor
  · intro crc0 crc1
    simp [rp2040_sdio_rx_poll, rp2040_sdio_stop, h0, hst, ht]
  · simp [rp2040_sdio_tx_poll, rp2040_sdio_stop, h0, hst, ht]

/-- Witness for `poll_timeout_aborts_session` at a concrete in-flight state
polled 2000 ms after arming. -/
theorem poll_timeout_aborts_session_witness :
    (rp2040_sdio_rx_poll 2000 0 0
        { initCtx with transfer_state := .SDIO_RX }).1 = .SDIO_ERR_DATA_TIMEOUT ∧
    (rp2040_sdio_tx_poll 2000
        { initCtx with transfer_state := .SDIO_TX }).1 = .SDIO_ERR_DATA_TIMEOUT :=
  ⟨((poll_timeout_aborts_session { initCtx with transfer_state := .SDIO_RX } 2000
      (by decide) (by decide) (by decide)).1 0 0).1,
   ((poll_timeout_aborts_session { initCtx with transfer_state := .SDIO_TX } 2000
      (by decide) (by decide) (by decide)).2).1⟩

/-- C7: `rp2040_sdio_command_R1` accepts a reply only if the CRC7 recomputed
over the five received bytes equals the embedded CRC byte with its trailing
bit masked out (`& 0xFE`), failing with the response-CRC error otherwise; a
surviving reply must echo the command index, failing with the response-code
error otherwise, except for command 41 whose anonymous echo is not checked;
only then is the decoded payload returned. -/
theorem rp2040_sdio_command_R1_validation (command resp0 resp1 : Nat) :
    (crc7_of_bytes [(resp0 >>> 24) &&& 0xFF, (resp0 >>> 16) &&& 0xFF,
        (resp0 >>> 8) &&& 0xFF, resp0 &&& 0xFF, (resp1 >>> 8) &&& 0xFF] ≠ resp1 &&& 0xFE →
      rp2040_sdio_command_R1_decode command resp0 resp1 =
        (.SDIO_ERR_RESPONSE_CRC, none)) ∧
    (crc7_of_bytes [(resp0 >>> 24) &&& 0xFF, (resp0 >>> 16) &&& 0xFF,
        (resp0 >>> 8) &&& 0xFF, resp0 &&& 0xFF, (resp1 >>> 8) &&& 0xFF] = resp1 &&& 0xFE →
      ((resp0 >>> 24) &&& 0xFF) ≠ command → command ≠ 41 →
      rp2040_sdio_command_R1_decode command resp0 resp1 =
        (.SDIO_ERR_RESPONSE_CODE, none)) ∧
    (crc7_of_bytes [(resp0 >>> 24) &&& 0xFF, (resp0 >>> 16) &&& 0xFF,
        (resp0 >>> 8) &&& 0xFF, resp0 &&& 0xFF, (resp1 >>> 8) &&& 0xFF] = resp1 &&& 0xFE →
      (((resp0 >>> 24) &&& 0xFF) = command ∨ command = 41) →
      rp2040_sdio_command_R1_decode command resp0 resp1 =
        (.SDIO_OK, some (((resp0 &&& 0xFFFFFF) <<< 8) ||| ((resp1 >>> 8) &&& 0xFF)))) := by
  refine ⟨?_, ?_, ?_⟩
  · intro h
    simp only [crc7_of_bytes, List.foldl] at h
    simp [rp2040_sdio_command_R1_decode, h]
  · intro h hcmd h41
    simp only [crc7_of_bytes, List.foldl] at h
    simp [rp2040_sdio_command_R1_decode, h, hcmd, h41]
  · intro h hecho
    simp only [crc7_of_bytes, List.foldl] at h
    rcases hecho with hcmd | h41
    · have hne : ¬(((resp0 >>> 24) &&& 0xFF) ≠ command ∧ command ≠ 41) :=
        fun hc => hc.1 hcmd
      simp [rp2040_sdio_command_R1_decode, h, hne]
    · have hne : ¬(((resp0 >>> 24) &&& 0xFF) ≠ command ∧ command ≠ 41) :=
        fun hc => hc.2 h41
      simp [rp2040_sdio_command_R1_decode, h, hne]

/-- Witness for `rp2040_sdio_command_R1_validation`: a CMD17 reply with echo
17, zero payload, and an embedded CRC byte equal to the recomputed CRC7
decodes to `SDIO_OK` with payload 0. -/
theorem rp2040_sdio_command_R1_validation_witness :
    rp2040_sdio_command_R1_decode 17 (17 <<< 24)
        (crc7_of_bytes [17, 0, 0, 0, 0]) = (.SDIO_OK, some 0) := by
  have h := (rp2040_sdio_command_R1_validation 17 (17 <<< 24)
      (crc7_of_bytes [17, 0, 0, 0, 0])).2.2 (by decide) (by decide)
  simpa using h

/-- C1 fails on the code: `sdio_compute_tx_checksums` only runs while
`blocks_checksumed < blocks_done`, which is `0 < 0` when `rp2040_sdio_tx_start`
calls it, so no checksum at all is computed before (or after) DMA is launched;
the source's own assertion `blocks_checksumed > blocks_done` in
`sdio_start_next_block_tx` is violated, and the completion handler appends the
stale table value 0 instead of the block's CRC16x4 (which is nonzero for a
block of words equal to 1). -/
theorem tx_start_computes_no_checksum :
    ((rp2040_sdio_tx_start (fun _ => 1) 1 false 0 initCtx).2.blocks_checksumed = 0 ∧
     (rp2040_sdio_tx_start (fun _ => 1) 1 false 0 initCtx).2.assert_failed = true) ∧
    sdio_crc16_4bit_checksum (blockWords (fun _ => 1) 0) ≠ 0 ∧
    (rp2040_sdio_tx_irq
        (rp2040_sdio_tx_start (fun _ => 1) 1 false 0 initCtx).2).tx_fifo =
      [0, 0, 0xFFFFFFFF] := by
  refine ⟨⟨by decide, by decide⟩, by decide, by decide⟩

/-- C2 fails on the code: after `rp2040_sdio_rx_start` is called from a fault
context and the armed DMA transfer completes (raw completion flag set), the
poll's manual-dispatch check reads `dma_hw->ints0` — the IRQ0-masked status,
which is always clear because `rp2040_sdio_init` only enables the channel on
IRQ 1 — so `rp2040_sdio_rx_poll` never invokes the completion handler and the
session never advances, while the interrupt path (`rp2040_sdio_dma_irq`) on
the identical state advances it to completion. -/
theorem rx_poll_in_fault_mode_misses_completion :
    (let sB := sdioStep ((rp2040_sdio_rx_start (fun _ => 0) 1 true 0 initCtx).2)
        (.complete 0 0)
     sB.dma_intr = true ∧ sB.dma_inte1 = true ∧ sB.blocks_done = 0 ∧
     (rp2040_sdio_rx_poll 0 0 0 sB).1 = .SDIO_BUSY ∧
     (rp2040_sdio_rx_poll 0 0 0 sB).2.2.blocks_done = 0 ∧
     (rp2040_sdio_rx_poll 0 0 0 sB).2.2.transfer_state = .SDIO_RX ∧
     (rp2040_sdio_dma_irq 0 0 sB).blocks_done = 1 ∧
     (rp2040_sdio_dma_irq 0 0 sB).transfer_state = .SDIO_IDLE) := by
  decide

/-- Counterexample to C3 as stated: after a one-block receive session
completes, every further poll returns the terminal status `SDIO_OK` again —
here two consecutive polls both return `SDIO_OK` — so a terminal status is
not returned "exactly once". -/
theorem rx_poll_terminal_status_repeats :
    (let s1 := sdioStep ((rp2040_sdio_rx_start (fun _ => 0) 1 false 0 initCtx).2)
        (.complete 0 0)
     (rp2040_sdio_rx_poll 0 0 0 s1).1 = .SDIO_OK ∧
     (rp2040_sdio_rx_poll 0 0 0 (rp2040_sdio_rx_poll 0 0 0 s1).2.2).1 = .SDIO_OK) := by
  decide

/-- Counterexample to C5 as stated: a transmit session of two blocks with one
block completed has pending checksum work (`blocks_checksumed = 0 <
blocks_done = 1`), yet an in-flight, in-budget `rp2040_sdio_tx_poll` returns
`SDIO_BUSY` without advancing checksum computation by a block. -/
theorem tx_poll_does_no_checksum_work :
    (let s1 := sdioStep ((rp2040_sdio_tx_start (fun _ => 0) 2 false 0 initCtx).2)
        (.complete 0 0)
     s1.transfer_state = .SDIO_TX ∧ s1.blocks_done = 1 ∧ s1.blocks_checksumed = 0 ∧
     (rp2040_sdio_tx_poll 0 s1).1 = .SDIO_BUSY ∧
     (rp2040_sdio_tx_poll 0 s1).2.2.blocks_checksumed = 0) := by
  decide

/-- Checksum verification touches only the verification counters and the log:
it preserves every other observable field of the session and hardware state. -/
theorem sdio_verify_rx_checksums_preserves (n : Nat) :
    ∀ s : SdioCtx,
      (sdio_verify_rx_checksums n s).blocks_done = s.blocks_done ∧
      (sdio_verify_rx_checksums n s).transfer_state = s.transfer_state ∧
      (sdio_verify_rx_checksums n s).total_blocks = s.total_blocks ∧
      (sdio_verify_rx_checksums n s).dma_armed = s.dma_armed ∧
      (sdio_verify_rx_checksums n s).dma_intr = s.dma_intr ∧
      (sdio_verify_rx_checksums n s).dma_inte0 = s.dma_inte0 ∧
      (sdio_verify_rx_checksums n s).dma_inte1 = s.dma_inte1 ∧
      (sdio_verify_rx_checksums n s).transfer_start_time = s.transfer_start_time ∧
      (sdio_verify_rx_checksums n s).data_buf = s.data_buf ∧
      (sdio_verify_rx_checksums n s).block_checksums = s.block_checksums ∧
      (sdio_verify_rx_checksums n s).inside_irq_handler = s.inside_irq_handler := by
  induction n with
  | zero => intro s; simp [sdio_verify_rx_checksums]
  | succ m ih =>
    intro s
    simp only [sdio_verify_rx_checksums]
    split
    · split
      · split <;> simp [ih]
      · simp [ih]
    · simp

/-- Verification advances `blocks_checksumed` by `min n` (remaining blocks). -/
theorem sdio_verify_rx_checksums_checksumed (n : Nat) :
    ∀ s : SdioCtx, s.blocks_checksumed ≤ s.blocks_done →
      (sdio_verify_rx_checksums n s).blocks_checksumed =
        s.blocks_checksumed + min n (s.blocks_done - s.blocks_checksumed) := by
  induction n with
  | zero => intro s _; simp [sdio_verify_rx_checksums]
  | succ m ih =>
    intro s hs
    simp only [sdio_verify_rx_checksums]
    split
    · rename_i hlt
      split
      · split
        · rw [ih _ (by simp; omega)]; simp; omega
        · rw [ih _ (by simp; omega)]; simp; omega
      · rw [ih _ (by simp; omega)]; simp; omega
    · rename_i hge
      omega

/-- Verification adds exactly the number of mismatching blocks in the newly
verified range to `checksum_errors`. -/
theorem sdio_verify_rx_checksums_errors (n : Nat) :
    ∀ s : SdioCtx, s.blocks_checksumed ≤ s.blocks_done →
      (sdio_verify_rx_checksums n s).checksum_errors =
        s.checksum_errors +
          mismatchCount s.data_buf s.block_checksums s.blocks_checksumed
            (min n (s.blocks_done - s.blocks_checksumed)) := by
  induction n with
  | zero => intro s _; simp [sdio_verify_rx_checksums, mismatchCount]
  | succ m ih =>
    intro s hs
    simp only [sdio_verify_rx_checksums]
    split
    · rename_i hlt
      have hmin : min (m + 1) (s.blocks_done - s.blocks_checksumed) =
          min m (s.blocks_done - (s.blocks_checksumed + 1)) + 1 := by omega
      rw [hmin]
      split
      · rename_i hne
        split
        · rw [ih _ (by simp; omega)]
          simp [mismatchCount, hne]
          omega
        · rw [ih _ (by simp; omega)]
          simp [mismatchCount, hne]
          omega
      · rename_i heqn
        have heq := not_ne_iff.mp heqn
        rw [ih _ (by simp; omega)]
        simp [mismatchCount, heq]
    · rename_i hge
      have : s.blocks_done - s.blocks_checksumed = 0 := by omega
      simp [this, mismatchCount]

/-- The checksum-error log counter tracks `min checksum_errors 1`: at most one
log message is ever emitted per session, at the first mismatch. -/
theorem sdio_verify_rx_checksums_log (n : Nat) :
    ∀ s : SdioCtx, s.crc_log_count = min s.checksum_errors 1 →
      (sdio_verify_rx_checksums n s).crc_log_count =
        min (sdio_verify_rx_checksums n s).checksum_errors 1 := by
  induction n with
  | zero => intro s h; simpa [sdio_verify_rx_checksums] using h
  | succ m ih =>
    intro s h
    simp only [sdio_verify_rx_checksums]
    split
    · split
      · split
        · rename_i herr1
          exact ih _ (by simp at herr1 ⊢; omega)
        · rename_i herr1
          exact ih _ (by simp at herr1 ⊢; omega)
      · exact ih _ (by simpa using h)
    · exact h

/-- Splitting a block range splits its mismatch count. -/
theorem mismatchCount_add (buf table : Nat → Nat) (x : Nat) :
    ∀ a y, mismatchCount buf table a (x + y) =
      mismatchCount buf table a x + mismatchCount buf table (a + x) y := by
  induction x with
  | zero => intro a y; simp [mismatchCount]
  | succ m ih =>
    intro a y
    have hx : m + 1 + y = (m + y) + 1 := by omega
    rw [hx]
    simp only [mismatchCount, ih]
    have hax : a + 1 + m = a + (m + 1) := by omega
    rw [hax]
    omega

/-- C4: checksum mismatches during receive never abort the transfer or change
block advancement (verification preserves `blocks_done`, the transfer state
and the armed DMA), at most one mismatch is logged per session, and once the
session is back to idle `rp2040_sdio_rx_poll` verifies every remaining block
and returns `SDIO_OK` exactly when zero mismatches occurred across the whole
session, `SDIO_ERR_DATA_CRC` otherwise. -/
theorem rx_checksum_mismatch_policy :
    (∀ n (s : SdioCtx),
      (sdio_verify_rx_checksums n s).blocks_done = s.blocks_done ∧
      (sdio_verify_rx_checksums n s).transfer_state = s.transfer_state ∧
      (sdio_verify_rx_checksums n s).dma_armed = s.dma_armed) ∧
    (∀ n (s : SdioCtx), s.crc_log_count = min s.checksum_errors 1 →
      (sdio_verify_rx_checksums n s).crc_log_count ≤ 1) ∧
    (∀ (s : SdioCtx) (now crc0 crc1 : Nat),
      s.dma_inte0 = false →
      s.transfer_state = .SDIO_IDLE →
      s.blocks_checksumed ≤ s.blocks_done →
      s.blocks_done ≤ s.total_blocks →
      s.checksum_errors =
        mismatchCount s.data_buf s.block_checksums 0 s.blocks_checksumed →
      (((rp2040_sdio_rx_poll now crc0 crc1 s).1 = .SDIO_OK ↔
          mismatchCount s.data_buf s.block_checksums 0 s.blocks_done = 0) ∧
        ((rp2040_sdio_rx_poll now crc0 crc1 s).1 = .SDIO_OK ∨
          (rp2040_sdio_rx_poll now crc0 crc1 s).1 = .SDIO_ERR_DATA_CRC) ∧
        (rp2040_sdio_rx_poll now crc0 crc1 s).2.2.blocks_checksumed = s.blocks_done ∧
        (rp2040_sdio_rx_poll now crc0 crc1 s).2.2.blocks_done = s.blocks_done)) := by
  refine ⟨fun n s => ⟨(sdio_verify_rx_checksums_preserves n s).1,
      (sdio_verify_rx_checksums_preserves n s).2.1,
      (sdio_verify_rx_checksums_preserves n s).2.2.2.1⟩, ?_, ?_⟩
  · intro n s h
    rw [sdio_verify_rx_checksums_log n s h]
    omega
  · intro s now crc0 crc1 h0 hidle hcd hdt herr
    have hdead : (s.inside_irq_handler && (s.dma_intr && s.dma_inte0)) = false := by
      simp [h0]
    have herrs := sdio_verify_rx_checksums_errors s.total_blocks s hcd
    have hcs := sdio_verify_rx_checksums_checksumed s.total_blocks s hcd
    have hmin : min s.total_blocks (s.blocks_done - s.blocks_checksumed) =
        s.blocks_done - s.blocks_checksumed := by omega
    rw [hmin] at herrs hcs
    have htotal : mismatchCount s.data_buf s.block_checksums 0 s.blocks_done =
        mismatchCount s.data_buf s.block_checksums 0 s.blocks_checksumed +
          mismatchCount s.data_buf s.block_checksums s.blocks_checksumed
            (s.blocks_done - s.blocks_checksumed) := by
      have := mismatchCount_add s.data_buf s.block_checksums s.blocks_checksumed 0
        (s.blocks_done - s.blocks_checksumed)
      simpa [Nat.add_sub_cancel' hcd] using this
    have hfin : (sdio_verify_rx_checksums s.total_blocks s).checksum_errors =
        mismatchCount s.data_buf s.block_checksums 0 s.blocks_done := by
      rw [herrs, herr, htotal]
    have hdone := (sdio_verify_rx_checksums_preserves s.total_blocks s).1
    by_cases hz : (sdio_verify_rx_checksums s.total_blocks s).checksum_errors = 0
    · have h1 : (rp2040_sdio_rx_poll now crc0 crc1 s).1 = .SDIO_OK := by
        simp [rp2040_sdio_rx_poll, hdead, hidle, hz]
      have h2 : (rp2040_sdio_rx_poll now crc0 crc1 s).2.2 =
          sdio_verify_rx_checksums s.total_blocks s := by
        simp [rp2040_sdio_rx_poll, hdead, hidle, hz]
      refine ⟨⟨fun _ => by omega, fun _ => h1⟩, Or.inl h1, ?_, ?_⟩
      · rw [h2, hcs]; omega
      · rw [h2, hdone]
    · have h1 : (rp2040_sdio_rx_poll now crc0 crc1 s).1 = .SDIO_ERR_DATA_CRC := by
        simp [rp2040_sdio_rx_poll, hdead, hidle, hz]
      have h2 : (rp2040_sdio_rx_poll now crc0 crc1 s).2.2 =
          sdio_verify_rx_checksums s.total_blocks s := by
        simp [rp2040_sdio_rx_poll, hdead, hidle, hz]
      refine ⟨⟨fun hx => (by simp [h1] at hx), fun hm => absurd (hfin.trans hm) hz⟩,
        Or.inr h1, ?_, ?_⟩
      · rw [h2, hcs]; omega
      · rw [h2, hdone]

/-- Witness for `rx_checksum_mismatch_policy`: a completed one-block session
over an all-zero buffer whose recorded checksum matches reports `SDIO_OK`. -/
theorem rx_checksum_mismatch_policy_witness :
    (rp2040_sdio_rx_poll 0 0 0
      { initCtx with transfer_state := .SDIO_IDLE, blocks_done := 1,
                     total_blocks := 1 }).1 = .SDIO_OK :=
  ((rx_checksum_mismatch_policy.2.2
      { initCtx with transfer_state := .SDIO_IDLE, blocks_done := 1, total_blocks := 1 }
      0 0 0 rfl rfl (by decide) (by decide) (by decide)).1).mpr (by decide)

/-- C5 (amended): while a session is in flight and within the 1000 ms budget,
`rp2040_sdio_rx_poll` advances checksum verification by exactly one block when
verification lags reception (and by none once it has caught up) and returns
`SDIO_BUSY`; `rp2040_sdio_tx_poll` performs no checksum work at all in its
busy path, returning `SDIO_BUSY` with the state unchanged. -/
theorem poll_checksum_work_per_call :
    (∀ (s : SdioCtx) (now crc0 crc1 : Nat),
      s.dma_inte0 = false → s.transfer_state = .SDIO_RX →
      u32elapsed now s.transfer_start_time ≤ 1000 →
      (rp2040_sdio_rx_poll now crc0 crc1 s).1 = .SDIO_BUSY ∧
      (rp2040_sdio_rx_poll now crc0 crc1 s).2.2.blocks_checksumed =
        (if s.blocks_checksumed < s.blocks_done then s.blocks_checksumed + 1
         else s.blocks_checksumed) ∧
      (rp2040_sdio_rx_poll now crc0 crc1 s).2.2.blocks_done = s.blocks_done) ∧
    (∀ (s : SdioCtx) (now : Nat),
      s.dma_inte0 = false → s.transfer_state = .SDIO_TX →
      u32elapsed now s.transfer_start_time ≤ 1000 →
      rp2040_sdio_tx_poll now s = (.SDIO_BUSY, s.blocks_done * 512, s)) := by
  constructor
  · intro s now crc0 crc1 h0 hrx ht
    have hdead : (s.inside_irq_handler && (s.dma_intr && s.dma_inte0)) = false := by
      simp [h0]
    have hnt : ¬ u32elapsed now s.transfer_start_time > 1000 := by omega
    simp only [rp2040_sdio_rx_poll, hdead, Bool.false_eq_true, if_false, hrx]
    refine ⟨by simp [hnt], ?_, ?_⟩
    · simp only [if_neg (by simp [hnt] : ¬ (sdio_transfer_state_t.SDIO_RX = .SDIO_IDLE ∨ False)), hnt]
      simp [sdio_verify_rx_checksums]
      split
      · split <;> (try split) <;> simp
      · rfl
    · simp only [hnt]
      simp [sdio_verify_rx_checksums]
      split
      · split <;> (try split) <;> simp
      · rfl
  · intro s now h0 htx ht
    have hdead : (s.inside_irq_handler && (s.dma_intr && s.dma_inte0)) = false := by
      simp [h0]
    have hnt : ¬ u32elapsed now s.transfer_start_time > 1000 := by omega
    simp [rp2040_sdio_tx_poll, hdead, htx, hnt]

/-- Witness for `poll_checksum_work_per_call`: an in-flight receive session
with one received, not-yet-verified block polled within budget. -/
theorem poll_checksum_work_per_call_witness :
    (rp2040_sdio_rx_poll 0 0 0
      { initCtx with transfer_state := .SDIO_RX, blocks_done := 1,
                     total_blocks := 2 }).1 = .SDIO_BUSY ∧
    (rp2040_sdio_tx_poll 0
      { initCtx with transfer_state := .SDIO_TX, blocks_done := 1,
                     total_blocks := 2 }).1 = .SDIO_BUSY :=
  ⟨(poll_checksum_work_per_call.1
      { initCtx with transfer_state := .SDIO_RX, blocks_done := 1, total_blocks := 2 }
      0 0 0 rfl rfl (by decide)).1,
   by rw [(poll_checksum_work_per_call.2
      { initCtx with transfer_state := .SDIO_TX, blocks_done := 1, total_blocks := 2 }
      0 rfl rfl (by decide))]⟩

/-- Verification does not disturb the receive-session invariant. -/
theorem rxSessionInv_verify (n t0 m : Nat) (s : SdioCtx)
    (h : rxSessionInv n t0 s) : rxSessionInv n t0 (sdio_verify_rx_checksums m s) := by
  obtain ⟨h0, hT, hN, hTX, hle, hRX, hIDLE⟩ := h
  have hp := sdio_verify_rx_checksums_preserves m s
  refine ⟨?_, ?_, ?_, ?_, ?_, ?_, ?_⟩
  · rw [hp.2.2.2.2.2.1]; exact h0
  · rw [hp.2.2.2.2.2.2.2.1]; exact hT
  · rw [hp.2.2.1]; exact hN
  · rw [hp.2.1]; exact hTX
  · rw [hp.1, hp.2.2.1]; exact hle
  · rw [hp.2.1, hp.1, hp.2.2.1]; exact hRX
  · rw [hp.2.1, hp.1, hp.2.2.1, hp.2.2.2.1]; exact hIDLE

/-- One admissible event preserves the receive-session invariant and never
decreases `blocks_done`. -/
theorem rxSessionInv_step (n t0 : Nat) (s : SdioCtx) (e : SdioEvent)
    (h : rxSessionInv n t0 s) (he : rxEventOk t0 e) :
    rxSessionInv n t0 (sdioStep s e) ∧ s.blocks_done ≤ (sdioStep s e).blocks_done := by
  obtain ⟨h0, hT, hN, hTX, hle, hRX, hIDLE⟩ := h
  subst hT
  subst hN
  match e with
  | .complete c0 c1 =>
    simp only [sdioStep]
    by_cases ha : s.dma_armed
    · have hstate : s.transfer_state = .SDIO_RX := by
        rcases hst : s.transfer_state with _ | _ | _
        · exact absurd ha (by simp [(hIDLE hst).2])
        · rfl
        · exact absurd hst hTX
      have hlt : s.blocks_done < s.total_blocks := hRX hstate
      simp only [ha, if_true]
      by_cases hd : (!s.inside_irq_handler && s.dma_inte1) = true
      · rw [if_pos hd]
        by_cases hlt2 : s.blocks_done + 1 < s.total_blocks
        · constructor
          · simp only [rxSessionInv]
            simp [rp2040_sdio_dma_irq, rp2040_sdio_rx_irq,
              sdio_start_next_block_rx, sdio_assert, hstate, hlt2, h0]
            omega
          · simp [rp2040_sdio_dma_irq, rp2040_sdio_rx_irq,
              sdio_start_next_block_rx, sdio_assert, hstate, hlt2]
        · constructor
          · simp only [rxSessionInv]
            simp [rp2040_sdio_dma_irq, rp2040_sdio_rx_irq,
              sdio_start_next_block_rx, sdio_assert, hstate, hlt2, h0]
            omega
          · simp [rp2040_sdio_dma_irq, rp2040_sdio_rx_irq,
              sdio_start_next_block_rx, sdio_assert, hstate, hlt2]
      · rw [if_neg hd]
        refine ⟨⟨h0, rfl, rfl, ?_, hle, ?_, ?_⟩, Nat.le_refl _⟩
        · exact fun hc => hTX hc
        · exact fun hc => hRX hc
        · intro hc
          exact absurd (hc ▸ hstate : sdio_transfer_state_t.SDIO_IDLE = .SDIO_RX)
            (fun hx => nomatch hx)
    · rw [if_neg ha]
      exact ⟨⟨h0, rfl, rfl, hTX, hle, hRX, hIDLE⟩, Nat.le_refl _⟩
  | .rxPoll now c0 c1 =>
    have hnow : u32elapsed now s.transfer_start_time ≤ 1000 := he
    have hdead : (s.inside_irq_handler && (s.dma_intr && s.dma_inte0)) = false := by
      simp [h0]
    have hp1 := sdio_verify_rx_checksums_preserves s.total_blocks s
    have hp2 := sdio_verify_rx_checksums_preserves 1 s
    by_cases hs : s.transfer_state = .SDIO_IDLE
    · have hv : sdioStep s (.rxPoll now c0 c1) =
          sdio_verify_rx_checksums s.total_blocks s := by
        by_cases hz : (sdio_verify_rx_checksums s.total_blocks s).checksum_errors = 0 <;>
          simp [sdioStep, rp2040_sdio_rx_poll, hdead, hs, hz]
      rw [hv]
      exact ⟨rxSessionInv_verify s.total_blocks s.transfer_start_time s.total_blocks s
        ⟨h0, rfl, rfl, hTX, hle, hRX, hIDLE⟩, by rw [hp1.1]⟩
    · have hnt : ¬ u32elapsed now s.transfer_start_time > 1000 := by omega
      have hv : sdioStep s (.rxPoll now c0 c1) = sdio_verify_rx_checksums 1 s := by
        simp [sdioStep, rp2040_sdio_rx_poll, hdead, hs, hnt]
      rw [hv]
      exact ⟨rxSessionInv_verify s.total_blocks s.transfer_start_time 1 s
        ⟨h0, rfl, rfl, hTX, hle, hRX, hIDLE⟩, by rw [hp2.1]⟩
  | .txPoll now => exact absurd he (fun hc => hc)

/-- The invariant holds along any admissible event trace. -/
theorem rxSessionInv_run (n t0 : Nat) :
    ∀ (es : List SdioEvent) (s : SdioCtx), rxSessionInv n t0 s →
      (∀ e ∈ es, rxEventOk t0 e) →
      rxSessionInv n t0 (List.foldl sdioStep s es) := by
  intro es
  induction es with
  | nil => intro s h _; exact h
  | cons e es ih =>
    intro s h hes
    exact ih (sdioStep s e)
      (rxSessionInv_step n t0 s e h (hes e (List.mem_cons_self e es))).1
      (fun x hx => hes x (List.mem_cons_of_mem e hx))

/-- Arming a receive session establishes the invariant. -/
theorem rxSessionInv_start (c : SdioCtx) (buf : Nat → Nat) (n : Nat)
    (fault : Bool) (t0 : Nat) (h0 : c.dma_inte0 = false) (hn : 1 ≤ n) :
    rxSessionInv n t0 ((rp2040_sdio_rx_start buf n fault t0 c).2) := by
  have hpos : 0 < n := hn
  by_cases hb : n ≤ 256 <;>
    simp [rxSessionInv, rp2040_sdio_rx_start, sdio_start_next_block_rx, sdio_assert,
      hb, hpos, h0]

/-- Status characterization of an in-budget receive poll under the session
invariant: busy exactly while the last block's handler has not fired, a
terminal status exactly once the session is idle, and the reported byte count
is always `blocks_done * 512`. -/
theorem rx_poll_status_shape (s : SdioCtx) (now crc0 crc1 : Nat)
    (h0 : s.dma_inte0 = false) (hTX : s.transfer_state ≠ .SDIO_TX)
    (hnt : u32elapsed now s.transfer_start_time ≤ 1000) :
    ((rp2040_sdio_rx_poll now crc0 crc1 s).1 = .SDIO_BUSY ↔
      s.transfer_state = .SDIO_RX) ∧
    (((rp2040_sdio_rx_poll now crc0 crc1 s).1 = .SDIO_OK ∨
      (rp2040_sdio_rx_poll now crc0 crc1 s).1 = .SDIO_ERR_DATA_CRC) ↔
      s.transfer_state = .SDIO_IDLE) ∧
    (rp2040_sdio_rx_poll now crc0 crc1 s).2.1 = s.blocks_done * 512 ∧
    (rp2040_sdio_rx_poll now crc0 crc1 s).2.2.blocks_done = s.blocks_done := by
  have hdead : (s.inside_irq_handler && (s.dma_intr && s.dma_inte0)) = false := by
    simp [h0]
  have hp1 := sdio_verify_rx_checksums_preserves s.total_blocks s
  have hp2 := sdio_verify_rx_checksums_preserves 1 s
  by_cases hs : s.transfer_state = .SDIO_IDLE
  · by_cases hz : (sdio_verify_rx_checksums s.total_blocks s).checksum_errors = 0
    · have h1 : (rp2040_sdio_rx_poll now crc0 crc1 s).1 = .SDIO_OK := by
        simp [rp2040_sdio_rx_poll, hdead, hs, hz]
      have h2 : (rp2040_sdio_rx_poll now crc0 crc1 s).2.1 = s.blocks_done * 512 := by
        simp [rp2040_sdio_rx_poll, hdead, hs, hz]
      have h3 : (rp2040_sdio_rx_poll now crc0 crc1 s).2.2 =
          sdio_verify_rx_checksums s.total_blocks s := by
        simp [rp2040_sdio_rx_poll, hdead, hs, hz]
      refine ⟨⟨fun hx => ?_, fun hx => ?_⟩, ⟨fun _ => hs, fun _ => Or.inl h1⟩, h2, ?_⟩
      · rw [h1] at hx; exact nomatch hx
      · rw [hs] at hx; exact nomatch hx
      · rw [h3, hp1.1]
    · have h1 : (rp2040_sdio_rx_poll now crc0 crc1 s).1 = .SDIO_ERR_DATA_CRC := by
        simp [rp2040_sdio_rx_poll, hdead, hs, hz]
      have h2 : (rp2040_sdio_rx_poll now crc0 crc1 s).2.1 = s.blocks_done * 512 := by
        simp [rp2040_sdio_rx_poll, hdead, hs, hz]
      have h3 : (rp2040_sdio_rx_poll now crc0 crc1 s).2.2 =
          sdio_verify_rx_checksums s.total_blocks s := by
        simp [rp2040_sdio_rx_poll, hdead, hs, hz]
      refine ⟨⟨fun hx => ?_, fun hx => ?_⟩, ⟨fun _ => hs, fun _ => Or.inr h1⟩, h2, ?_⟩
      · rw [h1] at hx; exact nomatch hx
      · rw [hs] at hx; exact nomatch hx
      · rw [h3, hp1.1]
  · have hrx : s.transfer_state = .SDIO_RX := by
      rcases hst : s.transfer_state with _ | _ | _
      · exact absurd hst hs
      · rfl
      · exact absurd hst hTX
    have hnt2 : ¬ u32elapsed now s.transfer_start_time > 1000 := by omega
    have h1 : (rp2040_sdio_rx_poll now crc0 crc1 s).1 = .SDIO_BUSY := by
      simp [rp2040_sdio_rx_poll, hdead, hs, hnt2]
    have h2 : (rp2040_sdio_rx_poll now crc0 crc1 s).2.1 = s.blocks_done * 512 := by
      simp [rp2040_sdio_rx_poll, hdead, hs, hnt2]
    have h3 : (rp2040_sdio_rx_poll now crc0 crc1 s).2.2 =
        sdio_verify_rx_checksums 1 s := by
      simp [rp2040_sdio_rx_poll, hdead, hs, hnt2]
    refine ⟨⟨fun _ => hrx, fun _ => h1⟩, ⟨fun hx => ?_, fun hx => absurd hx hs⟩, h2, ?_⟩
    · rcases hx with hx | hx <;> (rw [h1] at hx; exact nomatch hx)
    · rw [h3, hp2.1]

/-- C3 (amended): for every receive session (any start state with IRQ 0
disabled for the channel, as `rp2040_sdio_init` leaves it, and at least one
block) and every admissible event trace whose polls stay within the 1000 ms
budget, `blocks_done` never decreases and never exceeds `total_blocks`; an
in-budget poll returns `SDIO_BUSY` exactly when it is made strictly before the
last block's completion handler has fired, and a terminal status (`SDIO_OK`
or `SDIO_ERR_DATA_CRC`) on every call after it; and the reported
`bytes_complete` always equals `blocks_done * 512`. -/
theorem rx_session_progress_and_status (c : SdioCtx) (buf : Nat → Nat)
    (n : Nat) (fault : Bool) (t0 : Nat)
    (h0 : c.dma_inte0 = false) (hn : 1 ≤ n)
    (es : List SdioEvent) (hes : ∀ e ∈ es, rxEventOk t0 e) :
    (List.foldl sdioStep ((rp2040_sdio_rx_start buf n fault t0 c).2) es).blocks_done ≤ n ∧
    (∀ e, rxEventOk t0 e →
      (List.foldl sdioStep ((rp2040_sdio_rx_start buf n fault t0 c).2) es).blocks_done ≤
        (sdioStep (List.foldl sdioStep ((rp2040_sdio_rx_start buf n fault t0 c).2) es) e).blocks_done) ∧
    (∀ now crc0 crc1, u32elapsed now t0 ≤ 1000 →
      (((rp2040_sdio_rx_poll now crc0 crc1
          (List.foldl sdioStep ((rp2040_sdio_rx_start buf n fault t0 c).2) es)).1 = .SDIO_BUSY ↔
        (List.foldl sdioStep ((rp2040_sdio_rx_start buf n fault t0 c).2) es).transfer_state = .SDIO_RX) ∧
       (((rp2040_sdio_rx_poll now crc0 crc1
          (List.foldl sdioStep ((rp2040_sdio_rx_start buf n fault t0 c).2) es)).1 = .SDIO_OK ∨
         (rp2040_sdio_rx_poll now crc0 crc1
          (List.foldl sdioStep ((rp2040_sdio_rx_start buf n fault t0 c).2) es)).1 = .SDIO_ERR_DATA_CRC) ↔
        (List.foldl sdioStep ((rp2040_sdio_rx_start buf n fault t0 c).2) es).transfer_state = .SDIO_IDLE) ∧
       (rp2040_sdio_rx_poll now crc0 crc1
          (List.foldl sdioStep ((rp2040_sdio_rx_start buf n fault t0 c).2) es)).2.1 =
         (List.foldl sdioStep ((rp2040_sdio_rx_start buf n fault t0 c).2) es).blocks_done * 512)) := by
  have hinv := rxSessionInv_run n t0 es ((rp2040_sdio_rx_start buf n fault t0 c).2)
    (rxSessionInv_start c buf n fault t0 h0 hn) hes
  obtain ⟨hi0, hiT, hiN, hiTX, hile, hiRX, hiIDLE⟩ := hinv
  refine ⟨by omega, ?_, ?_⟩
  · intro e he
    exact (rxSessionInv_step n t0 _ e ⟨hi0, hiT, hiN, hiTX, hile, hiRX, hiIDLE⟩ he).2
  · intro now crc0 crc1 hnow
    have := rx_poll_status_shape _ now crc0 crc1 hi0 hiTX (by rw [hiT]; omega)
    exact ⟨this.1, this.2.1, this.2.2.1⟩

/-- Witness for `rx_session_progress_and_status`: a one-block session from a
freshly initialized driver, one completion event, polled at time 0. -/
theorem rx_session_progress_and_status_witness :
    (List.foldl sdioStep ((rp2040_sdio_rx_start (fun _ => 0) 1 false 0 initCtx).2)
      [.complete 0 0]).blocks_done ≤ 1 ∧
    ((rp2040_sdio_rx_poll 0 0 0
        (List.foldl sdioStep ((rp2040_sdio_rx_start (fun _ => 0) 1 false 0 initCtx).2)
          [.complete 0 0])).1 = .SDIO_BUSY ↔
      (List.foldl sdioStep ((rp2040_sdio_rx_start (fun _ => 0) 1 false 0 initCtx).2)
          [.complete 0 0]).transfer_state = .SDIO_RX) := by
  have h := rx_session_progress_and_status initCtx (fun _ => 0) 1 false 0 rfl
    (by decide) [.complete 0 0] (by intro e he; simp at he; rw [he]; exact trivial)
  exact ⟨h.1, (h.2.2 0 0 0 (by decide)).1⟩

/-- Right shift distributes over XOR. -/
theorem xor_shiftRight_distrib (a b k : Nat) :
    (a ^^^ b) >>> k = a >>> k ^^^ b >>> k := by
  apply Nat.eq_of_testBit_eq; intro i
  simp [Nat.testBit_shiftRight, Nat.testBit_xor]

/-- Left shift distributes over XOR. -/
theorem xor_shiftLeft_distrib (a b k : Nat) :
    (a ^^^ b) <<< k = a <<< k ^^^ b <<< k := by
  apply Nat.eq_of_testBit_eq; intro i
  simp [Nat.testBit_shiftLeft, Nat.testBit_xor, Bool.and_xor_distrib_left]

/-- Truncation to a power of two distributes over XOR. -/
theorem xor_mod_two_pow_distrib (a b k : Nat) :
    (a ^^^ b) % 2 ^ k = a % 2 ^ k ^^^ b % 2 ^ k := by
  apply Nat.eq_of_testBit_eq; intro i
  simp [Nat.testBit_mod_two_pow, Nat.testBit_xor, Bool.and_xor_distrib_left]

/-- Masking distributes over XOR. -/
theorem xor_and_distrib (a b m : Nat) :
    (a ^^^ b) &&& m = (a &&& m) ^^^ (b &&& m) := by
  apply Nat.eq_of_testBit_eq; intro i
  simp [Nat.testBit_and, Nat.testBit_xor, Bool.and_xor_distrib_right]

/-- XOR on `Nat` is left-commutative. -/
theorem xor_left_comm_nat (a b c : Nat) : a ^^^ (b ^^^ c) = b ^^^ (a ^^^ c) := by
  rw [← Nat.xor_assoc, Nat.xor_comm a b, Nat.xor_assoc]

/-- Byte swapping is linear over XOR. -/
theorem bswap32_xor (a b : Nat) : bswap32 (a ^^^ b) = bswap32 a ^^^ bswap32 b := by
  simp only [bswap32, xor_and_distrib, xor_shiftRight_distrib, xor_shiftLeft_distrib]
  simp [Nat.xor_assoc, Nat.xor_comm, xor_left_comm_nat]

/-- Interchange of two four-term XOR sums. -/
theorem xor_four_split (p1 p2 q1 q2 r1 r2 t1 t2 : Nat) :
    (((p1 ^^^ p2) ^^^ (q1 ^^^ q2)) ^^^ (r1 ^^^ r2)) ^^^ (t1 ^^^ t2) =
      (((p1 ^^^ q1) ^^^ r1) ^^^ t1) ^^^ (((p2 ^^^ q2) ^^^ r2) ^^^ t2) := by
  simp [Nat.xor_assoc, Nat.xor_comm, xor_left_comm_nat]

/-- The CRC16x4 word update is linear over XOR in state and data jointly:
every operation in it (byte swap, shifts, truncations, XORs) is F2-linear. -/
theorem crc16_step_xor (s1 s2 w1 w2 : Nat) :
    crc16_step (s1 ^^^ s2) (w1 ^^^ w2) = crc16_step s1 w1 ^^^ crc16_step s2 w2 := by
  simp only [crc16_step]
  rw [bswap32_xor, xor_shiftRight_distrib s1 s2 32, xor_shiftLeft_distrib s1 s2 32]
  generalize s1 <<< 32 = c1
  generalize s2 <<< 32 = c2
  generalize s1 >>> 32 = h1
  generalize s2 >>> 32 = h2
  generalize bswap32 w1 = d1
  generalize bswap32 w2 = d2
  rw [xor_shiftRight_distrib h1 h2 16, xor_shiftRight_distrib d1 d2 16,
    xor_mod_two_pow_distrib c1 c2 64]
  rw [xor_four_split h1 h2 (h1 >>> 16) (h2 >>> 16) (d1 >>> 16) (d2 >>> 16) d1 d2]
  generalize ((h1 ^^^ (h1 >>> 16)) ^^^ (d1 >>> 16)) ^^^ d1 = X1
  generalize ((h2 ^^^ (h2 >>> 16)) ^^^ (d2 >>> 16)) ^^^ d2 = X2
  rw [xor_shiftLeft_distrib X1 X2 20, xor_mod_two_pow_distrib (X1 <<< 20) (X2 <<< 20) 64,
    xor_shiftLeft_distrib X1 X2 48, xor_mod_two_pow_distrib (X1 <<< 48) (X2 <<< 48) 64]
  exact xor_four_split (c1 % 2 ^ 64) (c2 % 2 ^ 64) X1 X2 ((X1 <<< 20) % 2 ^ 64)
    ((X2 <<< 20) % 2 ^ 64) ((X1 <<< 48) % 2 ^ 64) ((X2 <<< 48) % 2 ^ 64)

/-- The CRC16x4 fold is linear over pointwise XOR of equal-length inputs. -/
theorem foldl_crc16_step_xor :
    ∀ (xs ys : List Nat), xs.length = ys.length → ∀ s1 s2 : Nat,
      List.foldl crc16_step (s1 ^^^ s2) (List.zipWith (fun a b => a ^^^ b) xs ys) =
        List.foldl crc16_step s1 xs ^^^ List.foldl crc16_step s2 ys := by
  intro xs
  induction xs with
  | nil =>
    intro ys h s1 s2
    cases ys with
    | nil => simp
    | cons y ys => simp at h
  | cons x xs ih =>
    intro ys h s1 s2
    cases ys with
    | nil => simp at h
    | cons y ys =>
      simp only [List.zipWith_cons_cons, List.foldl_cons]
      rw [crc16_step_xor]
      exact ih ys (by simpa using h) (crc16_step s1 x) (crc16_step s2 y)

/-- Folding over zero words iterates the zero-word update. -/
theorem foldl_zeroWords (m : Nat) :
    ∀ s : Nat, List.foldl crc16_step s (zeroWords m) = iterZeroWords m s := by
  induction m with
  | zero => intro s; rfl
  | succ k ih => intro s; simp only [zeroWords, List.foldl_cons, iterZeroWords]; exact ih _

theorem zeroWords_length (m : Nat) : (zeroWords m).length = m := by
  induction m with
  | zero => rfl
  | succ k ih => simp [zeroWords, ih]

theorem oneHot_length : ∀ (n i v : Nat), (oneHot n i v).length = n := by
  intro n
  induction n with
  | zero => intro i v; rfl
  | succ k ih =>
    intro i v
    cases i with
    | zero => simp [oneHot, zeroWords_length]
    | succ j => simp [oneHot, ih]

/-- The zero-word update fixes the zero accumulator. -/
theorem crc16_step_zero : crc16_step 0 0 = 0 := by decide

/-- The checksum of a single-bit buffer is the injected update shifted through
the remaining zero words. -/
theorem crc16_oneHot :
    ∀ (n i v : Nat), i < n →
      sdio_crc16_4bit_checksum (oneHot n i v) =
        iterZeroWords (n - i - 1) (crc16_step 0 v) := by
  intro n
  induction n with
  | zero => intro i v h; omega
  | succ k ih =>
    intro i v h
    cases i with
    | zero =>
      simp only [sdio_crc16_4bit_checksum, oneHot, List.foldl_cons]
      rw [foldl_zeroWords]
      simp
    | succ j =>
      simp only [sdio_crc16_4bit_checksum, oneHot, List.foldl_cons, crc16_step_zero]
      have := ih j v (by omega)
      simp only [sdio_crc16_4bit_checksum] at this
      rw [this]
      congr 1
      omega

/-- XOR with an all-zero list of matching length is the identity. -/
theorem zipWith_xor_zeroWords :
    ∀ xs : List Nat, List.zipWith (fun a b => a ^^^ b) xs (zeroWords xs.length) = xs := by
  intro xs
  induction xs with
  | nil => rfl
  | cons x xs ih => simp [zeroWords, ih]

/-- Pointwise XOR with a one-hot list flips exactly the word at its index. -/
theorem zipWith_xor_oneHot :
    ∀ (xs : List Nat) (i v : Nat), i < xs.length →
      List.zipWith (fun a b => a ^^^ b) xs (oneHot xs.length i v) =
        xs.set i (xs.getD i 0 ^^^ v) := by
  intro xs
  induction xs with
  | nil => intro i v h; simp at h
  | cons x xs ih =>
    intro i v h
    cases i with
    | zero => simp [oneHot, zipWith_xor_zeroWords]
    | succ j =>
      simp only [List.length_cons, oneHot, List.zipWith_cons_cons, List.set, List.getD]
      simp [ih j v (by simpa using h)]

/-- `chainNonzero` certifies that all iterates up to the bound are nonzero. -/
theorem chainNonzero_spec :
    ∀ (m : Nat) (s : Nat), chainNonzero m s = true →
      ∀ j, j < m → iterZeroWords j s ≠ 0 := by
  intro m
  induction m with
  | zero => intro s _ j hj; omega
  | succ k ih =>
    intro s h j hj
    rw [chainNonzero] at h
    rcases Bool.and_eq_true_iff.mp h with ⟨h1, h2⟩
    cases j with
    | zero => simpa using h1
    | succ i => exact ih (crc16_step s 0) h2 i (by omega)

/-- Exhaustive check: every single-bit injection stays nonzero through
127 further zero-word updates. -/
theorem allFlipNonzero_true : allFlipNonzero = true := by decide

/-- C8: `sdio_crc16_4bit_checksum` of the all-zero 128-word block is the fixed
value 0, and flipping any single bit of any 128-word input changes the
checksum — no collision under any minimal single-bit perturbation (proved via
F2-linearity of the fold plus the exhaustive nonzero check of all 4096
single-bit syndromes). -/
theorem crc16x4_zero_block_and_single_bit_flip :
    sdio_crc16_4bit_checksum (zeroWords 128) = 0 ∧
    ∀ (xs : List Nat) (i b : Nat), xs.length = 128 → i < 128 → b < 32 →
      (∀ w ∈ xs, w < 2 ^ 32) →
      sdio_crc16_4bit_checksum (xs.set i (xs.getD i 0 ^^^ 1 <<< b)) ≠
        sdio_crc16_4bit_checksum xs := by
  constructor
  · decide
  · intro xs i b hlen hi hb _hw
    have hset : xs.set i (xs.getD i 0 ^^^ 1 <<< b) =
        List.zipWith (fun a b => a ^^^ b) xs (oneHot 128 i (1 <<< b)) := by
      have := zipWith_xor_oneHot xs i (1 <<< b) (by omega)
      rw [hlen] at this
      exact this.symm
    rw [hset]
    have hz : sdio_crc16_4bit_checksum
        (List.zipWith (fun a b => a ^^^ b) xs (oneHot 128 i (1 <<< b))) =
        sdio_crc16_4bit_checksum xs ^^^
          sdio_crc16_4bit_checksum (oneHot 128 i (1 <<< b)) := by
      have hlen2 : xs.length = (oneHot 128 i (1 <<< b)).length := by
        rw [hlen, oneHot_length]
      have := foldl_crc16_step_xor xs (oneHot 128 i (1 <<< b)) hlen2 0 0
      simpa [sdio_crc16_4bit_checksum] using this
    rw [hz]
    have hnz : sdio_crc16_4bit_checksum (oneHot 128 i (1 <<< b)) ≠ 0 := by
      rw [crc16_oneHot 128 i (1 <<< b) hi]
      have hall := allFlipNonzero_true
      simp only [allFlipNonzero, List.all_eq_true, List.mem_range] at hall
      exact chainNonzero_spec 128 (crc16_step 0 (1 <<< b)) (hall b hb)
        (128 - i - 1) (by omega)
    intro hcontra
    apply hnz
    have h3 := congrArg (fun z => sdio_crc16_4bit_checksum xs ^^^ z) hcontra
    simpa [← Nat.xor_assoc, Nat.xor_self, Nat.zero_xor, Nat.xor_zero] using h3

/-- Witness for `crc16x4_zero_block_and_single_bit_flip`: flipping bit 0 of
word 0 of the all-zero block changes the checksum. -/
theorem crc16x4_zero_block_and_single_bit_flip_witness :
    sdio_crc16_4bit_checksum
        ((zeroWords 128).set 0 ((zeroWords 128).getD 0 0 ^^^ 1 <<< 0)) ≠
      sdio_crc16_4bit_checksum (zeroWords 128) :=
  crc16x4_zero_block_and_single_bit_flip.2 (zeroWords 128) 0 0
    (by decide) (by decide) (by decide) (by decide)

/-- If every one of the first `r + 1` CMD8 exchanges fails, the identification
loop does not report the expected (OK, 0x1AA) pair. -/
theorem beginIdentifyLoop_all_fail (env : BeginEnv) :
    ∀ (r k : Nat),
      (∀ j, j ≤ r → ¬((env.cmd (k + 2 * j + 1)).1 = .SDIO_OK ∧
          (env.cmd (k + 2 * j + 1)).2 = 0x1AA)) →
      ¬((beginIdentifyLoop env (r + 1) k).1.1 = .SDIO_OK ∧
        (beginIdentifyLoop env (r + 1) k).1.2 = 0x1AA) := by
  intro r
  induction r with
  | zero =>
    intro k h
    have h0 := h 0 (by omega)
    simp only [show k + 2 * 0 + 1 = k + 1 from by omega] at h0
    simp only [beginIdentifyLoop]
    rw [if_neg h0]
    exact h0
  | succ u ih =>
    intro k h
    have h0 := h 0 (by omega)
    simp only [show k + 2 * 0 + 1 = k + 1 from by omega] at h0
    simp only [beginIdentifyLoop]
    rw [if_neg h0]
    refine ih (k + 2) fun j hj => ?_
    have h2 := h (j + 1) (by omega)
    rw [show k + 2 * (j + 1) + 1 = k + 2 + 2 * j + 1 from by omega] at h2
    exact h2

/-- If the identification loop reports (OK, 0x1AA), some attempt within its
budget succeeded. -/
theorem beginIdentifyLoop_success (env : BeginEnv) :
    ∀ (r k : Nat),
      (beginIdentifyLoop env (r + 1) k).1.1 = .SDIO_OK →
      (beginIdentifyLoop env (r + 1) k).1.2 = 0x1AA →
      ∃ j, j ≤ r ∧ (env.cmd (k + 2 * j + 1)).1 = .SDIO_OK ∧
        (env.cmd (k + 2 * j + 1)).2 = 0x1AA := by
  intro r
  induction r with
  | zero =>
    intro k h1 h2
    by_cases hc : (env.cmd (k + 1)).1 = .SDIO_OK ∧ (env.cmd (k + 1)).2 = 0x1AA
    · exact ⟨0, by omega,
        by rw [show k + 2 * 0 + 1 = k + 1 from by omega]; exact hc.1,
        by rw [show k + 2 * 0 + 1 = k + 1 from by omega]; exact hc.2⟩
    · exfalso
      apply hc
      simp only [beginIdentifyLoop] at h1 h2
      rw [if_neg hc] at h1 h2
      exact ⟨h1, h2⟩
  | succ u ih =>
    intro k h1 h2
    by_cases hc : (env.cmd (k + 1)).1 = .SDIO_OK ∧ (env.cmd (k + 1)).2 = 0x1AA
    · exact ⟨0, by omega,
        by rw [show k + 2 * 0 + 1 = k + 1 from by omega]; exact hc.1,
        by rw [show k + 2 * 0 + 1 = k + 1 from by omega]; exact hc.2⟩
    · simp only [beginIdentifyLoop] at h1 h2
      rw [if_neg hc] at h1 h2
      obtain ⟨j, hj, hok, hrep⟩ := ih (k + 2) h1 h2
      refine ⟨j + 1, by omega, ?_, ?_⟩
      · rw [show k + 2 * (j + 1) + 1 = k + 2 + 2 * j + 1 from by omega]; exact hok
      · rw [show k + 2 * (j + 1) + 1 = k + 2 + 2 * j + 1 from by omega]; exact hrep

/-- The ACMD41 loop completes only with an OCR whose bit 31 is set. -/
theorem beginAcmd41Loop_done_bit (env : BeginEnv) (start : Nat) :
    ∀ (fuel k c ocr k2 : Nat),
      beginAcmd41Loop env start fuel k c = .done ocr k2 → ocr.testBit 31 = true := by
  intro fuel
  induction fuel with
  | zero => intro k c ocr k2 h; simp [beginAcmd41Loop] at h
  | succ m ih =>
    intro k c ocr k2 h
    simp only [beginAcmd41Loop] at h
    by_cases h1 : (env.cmd k).1 ≠ .SDIO_OK
    · rw [if_pos h1] at h; exact nomatch h
    · rw [if_neg h1] at h
      by_cases h2 : (env.cmd (k + 1)).1 ≠ .SDIO_OK
      · rw [if_pos h2] at h; exact nomatch h
      · rw [if_neg h2] at h
        by_cases h3 : u32elapsed (env.clock c) start > 1000
        · rw [if_pos h3] at h; exact nomatch h
        · rw [if_neg h3] at h
          by_cases h4 : ((env.cmd (k + 1)).2).testBit 31 = true
          · rw [if_pos h4] at h
            cases h
            exact h4
          · rw [if_neg h4] at h
            exact ih (k + 2) (c + 1) ocr k2 h

/-- As long as every earlier iteration lets the loop continue, the loop state
after `t` iterations is the loop started at the shifted indices. -/
theorem beginAcmd41Loop_shift (env : BeginEnv) (start : Nat) :
    ∀ (t F k c : Nat), t ≤ F →
      (∀ i, i < t → acmd41Continues env start (k + 2 * i) (c + i)) →
      beginAcmd41Loop env start F k c =
        beginAcmd41Loop env start (F - t) (k + 2 * t) (c + t) := by
  intro t
  induction t with
  | zero => intro F k c _ _; simp
  | succ u ih =>
    intro F k c hF hcont
    obtain ⟨F1, rfl⟩ : ∃ F1, F = F1 + 1 := ⟨F - 1, by omega⟩
    have h0 := hcont 0 (by omega)
    rw [show k + 2 * 0 = k from by omega, show c + 0 = c from by omega] at h0
    obtain ⟨ha, hb, hcl, hbit⟩ := h0
    have hstep : beginAcmd41Loop env start (F1 + 1) k c =
        beginAcmd41Loop env start F1 (k + 2) (c + 1) := by
      simp only [beginAcmd41Loop]
      rw [if_neg (by simp [ha]), if_neg (by simp [hb]), if_neg (by omega),
        if_neg (by simp [hbit])]
    rw [hstep, ih F1 (k + 2) (c + 1) (by omega) ?_]
    · rw [show F1 + 1 - (u + 1) = F1 - u from by omega,
        show k + 2 * (u + 1) = k + 2 + 2 * u from by omega,
        show c + (u + 1) = c + 1 + u from by omega]
    · intro i hi
      have h2 := hcont (i + 1) (by omega)
      rw [show k + 2 * (i + 1) = k + 2 + 2 * i from by omega,
        show c + (i + 1) = c + 1 + i from by omega] at h2
      exact h2

/-- `begin` fails as soon as the identification phase does not produce
(OK, 0x1AA). -/
theorem SdioCard_begin_false_of_identify (env : BeginEnv) (fuel : Nat)
    (h : ¬((beginIdentifyLoop env 5 0).1.1 = .SDIO_OK ∧
        (beginIdentifyLoop env 5 0).1.2 = 0x1AA)) :
    SdioCard_begin env fuel = false := by
  have hcond : (beginIdentifyLoop env 5 0).1.2 ≠ 0x1AA ∨
      (beginIdentifyLoop env 5 0).1.1 ≠ .SDIO_OK := by
    rcases Decidable.em ((beginIdentifyLoop env 5 0).1.1 = .SDIO_OK) with h1 | h1
    · exact Or.inl fun h2 => h ⟨h1, h2⟩
    · exact Or.inr h1
  simp only [SdioCard_begin]
  rw [if_pos hcond]

/-- `begin` fails when the ACMD41 loop fails. -/
theorem SdioCard_begin_false_of_fail (env : BeginEnv) (fuel : Nat)
    (h1 : (beginIdentifyLoop env 5 0).1.1 = .SDIO_OK)
    (h2 : (beginIdentifyLoop env 5 0).1.2 = 0x1AA)
    (hl : beginAcmd41Loop env (env.clock 0) fuel (beginIdentifyLoop env 5 0).2 1 =
      .fail) :
    SdioCard_begin env fuel = false := by
  simp only [SdioCard_begin]
  rw [if_neg (fun hc => hc.elim (fun hx => hx h2) (fun hx => hx h1)), hl]

/-- With fuel exhausted the model reports failure (never reached in the
theorems below, which bound the iteration count by the fuel). -/
theorem SdioCard_begin_false_of_out (env : BeginEnv) (fuel : Nat)
    (h1 : (beginIdentifyLoop env 5 0).1.1 = .SDIO_OK)
    (h2 : (beginIdentifyLoop env 5 0).1.2 = 0x1AA)
    (hl : beginAcmd41Loop env (env.clock 0) fuel (beginIdentifyLoop env 5 0).2 1 =
      .out) :
    SdioCard_begin env fuel = false := by
  simp only [SdioCard_begin]
  rw [if_neg (fun hc => hc.elim (fun hx => hx h2) (fun hx => hx h1)), hl]

/-- After a completed ACMD41 phase, `begin` reduces to the five closing
commands. -/
theorem SdioCard_begin_of_done (env : BeginEnv) (fuel ocr k2 : Nat)
    (h1 : (beginIdentifyLoop env 5 0).1.1 = .SDIO_OK)
    (h2 : (beginIdentifyLoop env 5 0).1.2 = 0x1AA)
    (hl : beginAcmd41Loop env (env.clock 0) fuel (beginIdentifyLoop env 5 0).2 1 =
      .done ocr k2) :
    SdioCard_begin env fuel =
      (if (env.cmd k2).1 ≠ .SDIO_OK then false
       else if (env.cmd (k2 + 1)).1 ≠ .SDIO_OK then false
       else if (env.cmd (k2 + 2)).1 ≠ .SDIO_OK then false
       else if (env.cmd (k2 + 3)).1 ≠ .SDIO_OK then false
       else if (env.cmd (k2 + 4)).1 ≠ .SDIO_OK then false
       else true) := by
  simp only [SdioCard_begin]
  rw [if_neg (fun hc => hc.elim (fun hx => hx h2) (fun hx => hx h1)), hl]

/-- C9: `SdioCard::begin` retries the CMD0/CMD8 identification exchange up to
5 attempts before giving up; it then repeatedly issues CMD55 + ACMD41 until
OCR bit 31 signals completion or the 1000 ms budget elapses; it returns
`false` on any failed command and on timeout, and returns `true` only after
the identification, the ACMD41 completion (bit 31 set), and all five closing
commands (CMD2, CMD3, CMD7, CMD55, ACMD6) have succeeded. -/
theorem SdioCard_begin_spec (env : BeginEnv) (fuel : Nat) :
    ((∀ j, j < 5 → ¬((env.cmd (2 * j + 1)).1 = .SDIO_OK ∧
        (env.cmd (2 * j + 1)).2 = 0x1AA)) →
      SdioCard_begin env fuel = false) ∧
    (SdioCard_begin env fuel = true →
      ∃ j, j < 5 ∧ (env.cmd (2 * j + 1)).1 = .SDIO_OK ∧
        (env.cmd (2 * j + 1)).2 = 0x1AA) ∧
    (SdioCard_begin env fuel = true →
      ∃ ocr k2,
        beginAcmd41Loop env (env.clock 0) fuel (beginIdentifyLoop env 5 0).2 1 =
          .done ocr k2 ∧ ocr.testBit 31 = true ∧
        (env.cmd k2).1 = .SDIO_OK ∧ (env.cmd (k2 + 1)).1 = .SDIO_OK ∧
        (env.cmd (k2 + 2)).1 = .SDIO_OK ∧ (env.cmd (k2 + 3)).1 = .SDIO_OK ∧
        (env.cmd (k2 + 4)).1 = .SDIO_OK) ∧
    (∀ t, t < fuel →
      (∀ i, i < t → acmd41Continues env (env.clock 0)
          ((beginIdentifyLoop env 5 0).2 + 2 * i) (1 + i)) →
      ((env.cmd ((beginIdentifyLoop env 5 0).2 + 2 * t)).1 ≠ .SDIO_OK ∨
        (env.cmd ((beginIdentifyLoop env 5 0).2 + 2 * t + 1)).1 ≠ .SDIO_OK) →
      SdioCard_begin env fuel = false) ∧
    (∀ t, t < fuel →
      (∀ i, i < t → acmd41Continues env (env.clock 0)
          ((beginIdentifyLoop env 5 0).2 + 2 * i) (1 + i)) →
      (env.cmd ((beginIdentifyLoop env 5 0).2 + 2 * t)).1 = .SDIO_OK →
      (env.cmd ((beginIdentifyLoop env 5 0).2 + 2 * t + 1)).1 = .SDIO_OK →
      u32elapsed (env.clock (1 + t)) (env.clock 0) > 1000 →
      SdioCard_begin env fuel = false) := by
  refine ⟨?_, ?_, ?_, ?_, ?_⟩
  · intro hfail
    apply SdioCard_begin_false_of_identify
    apply beginIdentifyLoop_all_fail env 4 0
    intro j hj
    have := hfail j (by omega)
    rw [show 2 * j + 1 = 0 + 2 * j + 1 from by omega] at this
    exact this
  · intro htrue
    by_cases hid : (beginIdentifyLoop env 5 0).1.1 = .SDIO_OK ∧
        (beginIdentifyLoop env 5 0).1.2 = 0x1AA
    · obtain ⟨j, hj, hok, hrep⟩ := beginIdentifyLoop_success env 4 0 hid.1 hid.2
      refine ⟨j, by omega, ?_, ?_⟩
      · rw [show 2 * j + 1 = 0 + 2 * j + 1 from by omega]; exact hok
      · rw [show 2 * j + 1 = 0 + 2 * j + 1 from by omega]; exact hrep
    · rw [SdioCard_begin_false_of_identify env fuel hid] at htrue
      exact nomatch htrue
  · intro htrue
    by_cases hid : (beginIdentifyLoop env 5 0).1.1 = .SDIO_OK ∧
        (beginIdentifyLoop env 5 0).1.2 = 0x1AA
    · rcases hl : beginAcmd41Loop env (env.clock 0) fuel
          (beginIdentifyLoop env 5 0).2 1 with ⟨ocr, k2⟩ | _ | _
      · have hb := htrue
        rw [SdioCard_begin_of_done env fuel ocr k2 hid.1 hid.2 hl] at hb
        refine ⟨ocr, k2, rfl,
          beginAcmd41Loop_done_bit env (env.clock 0) fuel _ 1 ocr k2 hl, ?_⟩
        split_ifs at hb with a b c d e
        exact ⟨not_ne_iff.mp a, not_ne_iff.mp b, not_ne_iff.mp c,
          not_ne_iff.mp d, not_ne_iff.mp e⟩
      · rw [SdioCard_begin_false_of_fail env fuel hid.1 hid.2 hl] at htrue
        exact nomatch htrue
      · rw [SdioCard_begin_false_of_out env fuel hid.1 hid.2 hl] at htrue
        exact nomatch htrue
    · rw [SdioCard_begin_false_of_identify env fuel hid] at htrue
      exact nomatch htrue
  · intro t ht hcont hfail
    by_cases hid : (beginIdentifyLoop env 5 0).1.1 = .SDIO_OK ∧
        (beginIdentifyLoop env 5 0).1.2 = 0x1AA
    · apply SdioCard_begin_false_of_fail env fuel hid.1 hid.2
      rw [beginAcmd41Loop_shift env (env.clock 0) t fuel
        (beginIdentifyLoop env 5 0).2 1 (by omega) hcont]
      obtain ⟨m, hm⟩ : ∃ m, fuel - t = m + 1 := ⟨fuel - t - 1, by omega⟩
      rw [hm]
      simp only [beginAcmd41Loop]
      by_cases hst1 : (env.cmd ((beginIdentifyLoop env 5 0).2 + 2 * t)).1 ≠ .SDIO_OK
      · rw [if_pos hst1]
      · rw [if_neg hst1]
        have hst2 : (env.cmd ((beginIdentifyLoop env 5 0).2 + 2 * t + 1)).1 ≠
            .SDIO_OK := hfail.resolve_left (not_not_intro (not_ne_iff.mp hst1))
        rw [if_pos hst2]
    · exact SdioCard_begin_false_of_identify env fuel hid
  · intro t ht hcont hst1 hst2 hlate
    by_cases hid : (beginIdentifyLoop env 5 0).1.1 = .SDIO_OK ∧
        (beginIdentifyLoop env 5 0).1.2 = 0x1AA
    · apply SdioCard_begin_false_of_fail env fuel hid.1 hid.2
      rw [beginAcmd41Loop_shift env (env.clock 0) t fuel
        (beginIdentifyLoop env 5 0).2 1 (by omega) hcont]
      obtain ⟨m, hm⟩ : ∃ m, fuel - t = m + 1 := ⟨fuel - t - 1, by omega⟩
      rw [hm]
      simp only [beginAcmd41Loop]
      rw [if_neg (by simp [hst1]), if_neg (by simp [hst2]), if_pos hlate]
    · exact SdioCard_begin_false_of_identify env fuel hid

/-- Witness for `SdioCard_begin_spec`: an environment in which every command
times out makes `begin` give up after its 5 identification attempts. -/
theorem SdioCard_begin_spec_witness :
    SdioCard_begin
      { cmd := fun _ => (.SDIO_ERR_RESPONSE_TIMEOUT, 0), clock := fun _ => 0 } 3 =
      false :=
  (SdioCard_begin_spec
    { cmd := fun _ => (.SDIO_ERR_RESPONSE_TIMEOUT, 0), clock := fun _ => 0 } 3).1
    (by decide)

end BlueSCSI
